import Mathlib

/-!
Shallow embedding of `databuilder/extractor/bigquery_usage_extractor.py`
(`BigQueryTableUsageExtractor`).

Audit log entries are modelled as nested records with `Option` fields: a
`none` at a field stands for the corresponding key being absent from the
Python dict, so that a dict subscript on a missing key is an uncaught
`KeyError`, modelled as the `err` outcome, while `dict.get` with a default
never fails.  The try/except around
`entry['protoPayload']['serviceData']['jobCompletedEvent']['job']` collapses
that whole path into the single optional field `LogEntry.job`.

The Stackdriver client is modelled as an oracle: the result of the first
`entries().list().execute()` call plus a list of results for each later
`execute()` attempt, each either a page response or a raised exception.
-/

namespace BigQueryUsage

/-- One element of `jobStatistics.referencedTables`: a
`(projectId, datasetId, tableId)` triple. -/
structure RefTable where
  projectId : String
  datasetId : String
  tableId : String
deriving DecidableEq

/-- `job['jobStatus']`: `state` is read with a subscript (absent key raises),
`error` is read with `.get('error', {})` (absent key yields the empty dict,
whose `len` is 0), so `error` is modelled with the empty list as the
absent/default value. -/
structure JobStatus where
  state : Option String
  error : List String
deriving DecidableEq

/-- `job['jobStatistics']`: `referencedTables` is read with
`.get('referencedTables', None)`, `totalTablesProcessed` with a subscript
(absent key raises). -/
structure JobStatistics where
  referencedTables : Option (List RefTable)
  totalTablesProcessed : Option Nat
deriving DecidableEq

/-- The `job` payload.  `jobName` collapses the `job['jobName']['jobId']`
path that is only touched when the count-mismatch warning fires. -/
structure Job where
  jobStatus : Option JobStatus
  jobStatistics : Option JobStatistics
  jobName : Option String
deriving DecidableEq

/-- One raw audit log entry.  `job` is `some` exactly when the
`protoPayload.serviceData.jobCompletedEvent.job` path resolves (the only
lookup guarded by try/except); `principalEmail` models
`entry['protoPayload']['authenticationInfo']['principalEmail']`, read with
subscripts. -/
structure LogEntry where
  job : Option Job
  principalEmail : Option String
deriving DecidableEq

/-- The `TableColumnUsageTuple` namedtuple: value-based equality on all six
fields. -/
structure TableColumnUsageTuple where
  database : String
  cluster : String
  schema : String
  table : String
  column : String
  email : String
deriving DecidableEq

/-- `self.table_usage_counts`: a Python dict keyed by
`TableColumnUsageTuple`, modelled as an association list in insertion
order (Python dicts iterate in insertion order). -/
abbrev Tally := List (TableColumnUsageTuple × Nat)

/-- Dict membership lookup: `table_usage_counts.get(key)` as an `Option`. -/
def lookupTally : Tally → TableColumnUsageTuple → Option Nat
  | [], _ => none
  | (k2, n) :: rest, k => if k2 = k then some n else lookupTally rest k

/-- `table_usage_counts.get(key, 0)`. -/
def lookupD (t : Tally) (k : TableColumnUsageTuple) : Nat :=
  (lookupTally t k).getD 0

/-- `new_count = self.table_usage_counts.get(key, 0) + 1;
self.table_usage_counts[key] = new_count`: an existing key keeps its
position, a new key is appended at the end. -/
def recordUsage : Tally → TableColumnUsageTuple → Tally
  | [], k => [(k, 1)]
  | (k2, n) :: rest, k =>
    if k2 = k then (k2, n + 1) :: rest else (k2, n) :: recordUsage rest k

/-- The `TableColumnUsageTuple(...)` constructor call inside the
`for refTable in refTables` loop. -/
def mkUsageKey (email : String) (rt : RefTable) : TableColumnUsageTuple :=
  { database := "bigquery"
    cluster := rt.projectId
    schema := rt.datasetId
    table := rt.tableId
    column := "*"
    email := email }

/-- Outcome of the `_count_usage` loop body on one entry: `skip` is a
`continue`, `err` is an uncaught exception, `keysOf ks` means one
`recordUsage` increment per element of `ks`, in order. -/
inductive StepResult where
  | skip
  | err
  | keysOf (keys : List TableColumnUsageTuple)
deriving DecidableEq

/-- `re.match(self.email_pattern, email)` truthiness, with the pattern
matcher abstracted as a boolean predicate (Python's `re.match` anchors at
the start of the string); `none` models no configured `email_pattern`. -/
def patMatches : Option (String → Bool) → String → Bool
  | none, _ => true
  | some p, email => p email

/-- The body of the `for entry in self._retrieve_records()` loop in
`_count_usage`, in source order: guarded job-path lookup, state check,
error check, `principalEmail` subscript, `jobStatistics` subscript,
empty-`referencedTables` check, email-pattern filter,
`totalTablesProcessed` subscript, count-mismatch warning (which touches
`job['jobName']['jobId']`), then one usage key per referenced table. -/
def processEntry (emailFilter : Option (String → Bool)) (entry : LogEntry) :
    StepResult :=
  match entry.job with
  | none => .skip
  | some job =>
    match job.jobStatus with
    | none => .err
    | some status =>
      match status.state with
      | none => .err
      | some s =>
        if s ≠ "DONE" then .skip
        else if 0 < status.error.length then .skip
        else
          match entry.principalEmail with
          | none => .err
          | some email =>
            match job.jobStatistics with
            | none => .err
            | some stats =>
              let refTables := stats.referencedTables.getD []
              if refTables.isEmpty then .skip
              else if patMatches emailFilter email then
                match stats.totalTablesProcessed with
                | none => .err
                | some ntp =>
                  if refTables.length ≠ ntp ∧ job.jobName = none then .err
                  else .keysOf (refTables.map (mkUsageKey email))
              else .skip

/-- The whole `_count_usage` aggregation pass over a list of entries:
an `err` outcome aborts the pass (the exception propagates out of `init`),
otherwise each entry's keys are recorded in order. -/
def countEntries (emailFilter : Option (String → Bool)) :
    Tally → List LogEntry → Except Unit Tally
  | tally, [] => .ok tally
  | tally, entry :: rest =>
    match processEntry emailFilter entry with
    | .skip => countEntries emailFilter tally rest
    | .err => .error ()
    | .keysOf keys => countEntries emailFilter (keys.foldl recordUsage tally) rest

/-- One response of `entries().list().execute()`: `entries` is `some` iff
the `'entries'` key is present, `nextPageToken` likewise. -/
structure PageResponse where
  entries : Option (List LogEntry)
  nextPageToken : Option String
deriving DecidableEq

/-- The `while response:` loop of `_page_over_results`, given the current
response and the oracle of results for the remaining `execute()` attempts.
Each iteration yields the current response when it carries entries; if a
continuation token is present, the next `execute()` result is consumed: on
success it becomes the new response, on exception the code sleeps and
re-enters the loop with the SAME response still bound.  An exhausted
oracle ends the model (the real code would keep retrying forever). -/
def page_over_results : PageResponse → List (Except Unit PageResponse) →
    List PageResponse
  | resp, [] =>
    if resp.entries.isSome then [resp] else []
  | resp, o :: rest =>
    let yielded := if resp.entries.isSome then [resp] else []
    match resp.nextPageToken with
    | none => yielded
    | some _ =>
      match o with
      | .ok next => yielded ++ page_over_results next rest
      | .error _ => yielded ++ page_over_results resp rest

/-- `_retrieve_records`: flatten `page['entries']` over the yielded pages. -/
def retrieve_records (resp : PageResponse)
    (oracle : List (Except Unit PageResponse)) : List LogEntry :=
  ((page_over_results resp oracle).map (fun p => p.entries.getD [])).flatten

/-- `init`'s aggregation phase end to end: the first `execute()` call is
not guarded, so its exception propagates; otherwise `_count_usage` folds
every retrieved entry into an initially empty tally. -/
def count_usage (emailFilter : Option (String → Bool))
    (firstResponse : Except Unit PageResponse)
    (oracle : List (Except Unit PageResponse)) : Except Unit Tally :=
  match firstResponse with
  | .error e => .error e
  | .ok resp => countEntries emailFilter [] (retrieve_records resp oracle)

/-- State of the facade after `init`: `self.iter` (the keys not yet
yielded, in insertion order) together with `self.table_usage_counts`. -/
abbrev ExtractState := List TableColumnUsageTuple × Tally

/-- `self.iter = iter(self.table_usage_counts)` over the finished tally. -/
def initState (t : Tally) : ExtractState := (t.map Prod.fst, t)

/-- One call of `extract()`: `next(self.iter)` plus the dict lookup
`self.table_usage_counts[key]`, returning `None` on `StopIteration`. -/
def extract : ExtractState → Option (TableColumnUsageTuple × Nat) × ExtractState
  | ([], t) => (none, ([], t))
  | (k :: ks, t) => (some (k, lookupD t k), (ks, t))

/-- The facade state after `n` calls of `extract()`. -/
def stateAfter (t : Tally) : Nat → ExtractState
  | 0 => initState t
  | n + 1 => (extract (stateAfter t n)).2

/-- The value returned by the `(n+1)`-st call of `extract()` (0-indexed). -/
def callResult (t : Tally) (n : Nat) : Option (TableColumnUsageTuple × Nat) :=
  (extract (stateAfter t n)).1

/-- The keys a step outcome records (none for `skip`/`err`). -/
def keysOfResult : StepResult → List TableColumnUsageTuple
  | .keysOf ks => ks
  | _ => []

/-- The stream of (entry, referenced-table) key occurrences that survive
the filters, over a whole entry list. -/
def recordedKeys (emailFilter : Option (String → Bool))
    (es : List LogEntry) : List TableColumnUsageTuple :=
  (es.map (fun e => keysOfResult (processEntry emailFilter e))).flatten

/-- Folding a key stream into an empty tally. -/
def tallyOf (ks : List TableColumnUsageTuple) : Tally :=
  ks.foldl recordUsage []

/-! ### Concrete sample data for evaluations -/

def rtP : RefTable := { projectId := "p", datasetId := "d", tableId := "t" }

def rtQ : RefTable := { projectId := "p2", datasetId := "d2", tableId := "t2" }

def doneStatus : JobStatus := { state := some "DONE", error := [] }

def statsPQ : JobStatistics :=
  { referencedTables := some [rtP, rtQ], totalTablesProcessed := some 2 }

def jobPQ : Job :=
  { jobStatus := some doneStatus, jobStatistics := some statsPQ,
    jobName := some "job1" }

/-- A well-formed DONE entry referencing two tables. -/
def entryPQ : LogEntry := { job := some jobPQ, principalEmail := some "a@x.com" }

def runningStatus : JobStatus := { state := some "RUNNING", error := [] }

def runningJob : Job :=
  { jobStatus := some runningStatus, jobStatistics := some statsPQ,
    jobName := some "job2" }

/-- A still-running entry (job state not DONE). -/
def runningEntry : LogEntry :=
  { job := some runningJob, principalEmail := some "a@x.com" }

/-- A well-formed DONE entry under a different principal email. -/
def entryOther : LogEntry := { job := some jobPQ, principalEmail := some "b@y.com" }

/-- An entry whose job-completion payload path does not resolve. -/
def emptyEntry : LogEntry := { job := none, principalEmail := none }

def statuslessJob : Job :=
  { jobStatus := none, jobStatistics := none, jobName := none }

/-- An entry whose payload resolves but whose `jobStatus` key is absent. -/
def entryMissingStatus : LogEntry :=
  { job := some statuslessJob, principalEmail := some "a@x.com" }

def statelessStatus : JobStatus := { state := none, error := [] }

def statelessJob : Job :=
  { jobStatus := some statelessStatus, jobStatistics := none, jobName := none }

/-- An entry whose `jobStatus` resolves but whose `state` key is absent. -/
def entryMissingState : LogEntry :=
  { job := some statelessJob, principalEmail := some "a@x.com" }

/-- A DONE entry whose `authenticationInfo.principalEmail` path is absent. -/
def entryMissingEmail : LogEntry := { job := some jobPQ, principalEmail := none }

def noStatsJob : Job :=
  { jobStatus := some doneStatus, jobStatistics := none, jobName := some "job3" }

/-- A DONE entry whose `jobStatistics` key is absent. -/
def entryMissingStats : LogEntry :=
  { job := some noStatsJob, principalEmail := some "a@x.com" }

def statsNoNtp : JobStatistics :=
  { referencedTables := some [rtP], totalTablesProcessed := none }

def noNtpJob : Job :=
  { jobStatus := some doneStatus, jobStatistics := some statsNoNtp,
    jobName := some "job4" }

/-- A DONE entry with referenced tables but no `totalTablesProcessed` key. -/
def entryMissingNtp : LogEntry :=
  { job := some noNtpJob, principalEmail := some "a@x.com" }

def statsMismatch : JobStatistics :=
  { referencedTables := some [rtP], totalTablesProcessed := some 5 }

def namelessJob : Job :=
  { jobStatus := some doneStatus, jobStatistics := some statsMismatch,
    jobName := none }

/-- A DONE entry whose table count mismatch fires the warning while the
`jobName` key is absent. -/
def entryMismatchNoName : LogEntry :=
  { job := some namelessJob, principalEmail := some "a@x.com" }

def entryA : LogEntry := { job := none, principalEmail := some "a@x.com" }

def entryB : LogEntry := { job := none, principalEmail := some "b@x.com" }

/-- First page: one entry plus a continuation token. -/
def pageOne : PageResponse :=
  { entries := some [entryA], nextPageToken := some "token1" }

/-- Final page: one entry, no continuation token. -/
def pageTwo : PageResponse := { entries := some [entryB], nextPageToken := none }

def tallySample : Tally :=
  [(mkUsageKey "a@x.com" rtP, 2), (mkUsageKey "a@x.com" rtQ, 1)]

/-! ### Lemmas about the tally dictionary -/

theorem lookupTally_recordUsage_self (t : Tally) (k : TableColumnUsageTuple) :
    lookupTally (recordUsage t k) k = some (lookupD t k + 1) := by
  induction t with
  | nil => simp [recordUsage, lookupTally, lookupD]
  | cons p rest ih =>
    obtain ⟨k2, n⟩ := p
    by_cases h : k2 = k
    · subst h
      simp [recordUsage, lookupTally, lookupD]
    · simp [recordUsage, lookupTally, lookupD, h, ih]

theorem lookupTally_recordUsage_other (t : Tally) (k k2 : TableColumnUsageTuple)
    (h : k2 ≠ k) : lookupTally (recordUsage t k) k2 = lookupTally t k2 := by
  induction t with
  | nil => simp [recordUsage, lookupTally, Ne.symm h]
  | cons p rest ih =>
    obtain ⟨a, n⟩ := p
    by_cases ha : a = k
    · subst ha
      simp [recordUsage, lookupTally, Ne.symm h]
    · by_cases hb : a = k2
      · subst hb
        simp [recordUsage, lookupTally, ha]
      · simp [recordUsage, lookupTally, ha, hb, ih]

theorem lookupD_recordUsage_self (t : Tally) (k : TableColumnUsageTuple) :
    lookupD (recordUsage t k) k = lookupD t k + 1 := by
  simp [lookupD, lookupTally_recordUsage_self]

theorem lookupD_recordUsage_other (t : Tally) (k k2 : TableColumnUsageTuple)
    (h : k2 ≠ k) : lookupD (recordUsage t k) k2 = lookupD t k2 := by
  simp [lookupD, lookupTally_recordUsage_other t k k2 h]

theorem lookupD_foldl_recordUsage (ks : List TableColumnUsageTuple) (t : Tally)
    (k : TableColumnUsageTuple) :
    lookupD (ks.foldl recordUsage t) k = lookupD t k + ks.count k := by
  induction ks generalizing t with
  | nil => simp
  | cons a ks ih =>
    rw [List.foldl_cons, ih]
    by_cases h : a = k
    · subst h
      rw [List.count_cons_self, lookupD_recordUsage_self]
      omega
    · rw [List.count_cons_of_ne (Ne.symm h), lookupD_recordUsage_other _ _ _ (Ne.symm h)]

theorem lookupTally_foldl_recordUsage (ks : List TableColumnUsageTuple) (t : Tally)
    (k : TableColumnUsageTuple) :
    lookupTally (ks.foldl recordUsage t) k =
      if ks.count k = 0 then lookupTally t k
      else some (lookupD t k + ks.count k) := by
  induction ks generalizing t with
  | nil => simp
  | cons a ks ih =>
    rw [List.foldl_cons, ih]
    by_cases h : a = k
    · subst h
      rw [List.count_cons_self]
      by_cases h0 : ks.count a = 0
      · simp [h0, lookupTally_recordUsage_self]
      · simp only [h0, if_false, Nat.succ_ne_zero, lookupD_recordUsage_self]
        congr 1
        omega
    · rw [List.count_cons_of_ne (Ne.symm h), lookupD_recordUsage_other _ _ _ (Ne.symm h),
        lookupTally_recordUsage_other _ _ _ (Ne.symm h)]

theorem recordUsage_pos (t : Tally) (k : TableColumnUsageTuple)
    (hpos : ∀ p ∈ t, 1 ≤ p.2) : ∀ p ∈ recordUsage t k, 1 ≤ p.2 := by
  induction t with
  | nil =>
    intro p hp
    simp [recordUsage] at hp
    simp [hp]
  | cons a rest ih =>
    obtain ⟨a1, a2⟩ := a
    intro p hp
    by_cases h : a1 = k
    · subst h
      simp [recordUsage] at hp
      rcases hp with hp | hp
      · simp [hp]
      · exact hpos p (by simp [hp])
    · simp [recordUsage, h] at hp
      rcases hp with hp | hp
      · exact hpos p (by simp [hp])
      · exact ih (fun q hq => hpos q (by simp [hq])) p hp

/-! ### Lemmas about the aggregation pass -/

theorem countEntries_cons (f : Option (String → Bool)) (t : Tally)
    (e : LogEntry) (es : List LogEntry) :
    countEntries f t (e :: es) =
      match processEntry f e with
      | .skip => countEntries f t es
      | .err => .error ()
      | .keysOf keys => countEntries f (keys.foldl recordUsage t) es := rfl

theorem countEntries_eq_of_no_err (f : Option (String → Bool)) (es : List LogEntry)
    (t : Tally) (herr : ∀ e ∈ es, processEntry f e ≠ .err) :
    countEntries f t es = .ok ((recordedKeys f es).foldl recordUsage t) := by
  induction es generalizing t with
  | nil => simp [countEntries, recordedKeys]
  | cons e es ih =>
    have he := herr e (by simp)
    have hrest : ∀ x ∈ es, processEntry f x ≠ .err := fun x hx => herr x (by simp [hx])
    rw [countEntries_cons]
    cases hp : processEntry f e with
    | skip =>
      have hrec : recordedKeys f (e :: es) = recordedKeys f es := by
        simp [recordedKeys, keysOfResult, hp]
      rw [hrec]
      exact ih _ hrest
    | err => exact absurd hp he
    | keysOf ks =>
      have hrec : recordedKeys f (e :: es) = ks ++ recordedKeys f es := by
        simp [recordedKeys, keysOfResult, hp]
      rw [hrec, List.foldl_append]
      exact ih _ hrest

/-! ### Lemmas about the extract() state machine -/

theorem extract_snd (rem : List TableColumnUsageTuple) (t : Tally) :
    (extract (rem, t)).2 = (rem.tail, t) := by
  cases rem <;> rfl

theorem stateAfter_eq (t : Tally) (n : Nat) :
    stateAfter t n = ((t.map Prod.fst).drop n, t) := by
  induction n with
  | zero => rfl
  | succ n ih =>
    have hstep : stateAfter t (n + 1) = (extract (stateAfter t n)).2 := rfl
    rw [hstep, ih, extract_snd, List.tail_drop]

theorem head?_drop_eq (l : List α) (n : Nat) : (l.drop n).head? = l[n]? := by
  induction l generalizing n with
  | nil => simp
  | cons a l ih =>
    cases n with
    | zero => simp
    | succ n =>
      rw [List.drop_succ_cons, List.getElem?_cons_succ]
      exact ih n

theorem mem_of_getElem_opt (l : List α) (n : Nat) (a : α) (h : l[n]? = some a) :
    a ∈ l := by
  induction l generalizing n with
  | nil => simp at h
  | cons b l ih =>
    cases n with
    | zero =>
      simp at h
      exact h ▸ List.mem_cons_self b l
    | succ n =>
      simp only [List.getElem?_cons_succ] at h
      exact List.mem_cons_of_mem _ (ih n h)

theorem lookupTally_of_getElem (t : Tally) (h : (t.map Prod.fst).Nodup) (n : Nat)
    (p : TableColumnUsageTuple × Nat) (hp : t[n]? = some p) :
    lookupTally t p.1 = some p.2 := by
  induction t generalizing n with
  | nil => simp at hp
  | cons a rest ih =>
    obtain ⟨a1, a2⟩ := a
    cases n with
    | zero =>
      simp at hp
      obtain ⟨pk, pv⟩ := p
      simp at hp
      obtain ⟨h1, h2⟩ := hp
      subst h1; subst h2
      simp [lookupTally]
    | succ n =>
      simp only [List.getElem?_cons_succ] at hp
      have hmem : p ∈ rest := mem_of_getElem_opt rest n p hp
      have hne : a1 ≠ p.1 := by
        intro hcontra
        have : p.1 ∈ rest.map Prod.fst := List.mem_map_of_mem Prod.fst hmem
        rw [List.map_cons, List.nodup_cons] at h
        exact h.1 (hcontra ▸ this)
      rw [List.map_cons, List.nodup_cons] at h
      simp [lookupTally, hne]
      exact ih h.2 n hp

/-! ### Claim theorems -/

/-- C1: an audit log entry that passes every filter — job state DONE, no
non-empty error, a non-empty referenced-tables list, identity filter
matched or absent — and whose remaining field reads resolve performs
exactly one increment per referenced table, each on the usage key
(bigquery, projectId, datasetId, tableId, *, principalEmail). -/
theorem done_entry_increments_once_per_table
    (f : Option (String → Bool)) (entry : LogEntry) (job : Job)
    (status : JobStatus) (stats : JobStatistics) (email jid : String)
    (refTables : List RefTable) (ntp : Nat)
    (hjob : entry.job = some job)
    (hstatus : job.jobStatus = some status)
    (hstate : status.state = some "DONE")
    (herr : status.error = [])
    (hemail : entry.principalEmail = some email)
    (hstats : job.jobStatistics = some stats)
    (href : stats.referencedTables = some refTables)
    (hne : refTables ≠ [])
    (hpat : patMatches f email = true)
    (hntp : stats.totalTablesProcessed = some ntp)
    (hname : job.jobName = some jid) :
    processEntry f entry = .keysOf (refTables.map (mkUsageKey email)) ∧
    (refTables.map (mkUsageKey email)).length = refTables.length ∧
    ∀ t rest, countEntries f t (entry :: rest) =
      countEntries f ((refTables.map (mkUsageKey email)).foldl recordUsage t) rest := by
  have hp : processEntry f entry = .keysOf (refTables.map (mkUsageKey email)) := by
    simp [processEntry, hjob, hstatus, hstate, herr, hemail, hstats, href, hne,
      hpat, hntp, hname, List.isEmpty_iff]
  refine ⟨hp, List.length_map _ _, fun t rest => ?_⟩
  rw [countEntries_cons, hp]

/-- Witness for C1 at a concrete DONE entry with two referenced tables. -/
theorem done_entry_increments_once_per_table_witness :
    processEntry none entryPQ =
      .keysOf [mkUsageKey "a@x.com" rtP, mkUsageKey "a@x.com" rtQ] ∧
    [mkUsageKey "a@x.com" rtP, mkUsageKey "a@x.com" rtQ].length =
      [rtP, rtQ].length := by
  have h := done_entry_increments_once_per_table none entryPQ jobPQ doneStatus
    statsPQ "a@x.com" "job1" [rtP, rtQ] 2 rfl rfl rfl rfl rfl rfl rfl
    (by decide) rfl rfl rfl
  exact ⟨h.1, h.2.1⟩

/-- C2: an entry whose job state is not DONE, or whose job status error
field is non-empty, or whose referenced-tables list is absent or empty,
is skipped and contributes zero increments. -/
theorem non_done_errored_or_tableless_entry_skipped
    (f : Option (String → Bool)) (entry : LogEntry) (job : Job)
    (status : JobStatus) (s : String)
    (hjob : entry.job = some job)
    (hstatus : job.jobStatus = some status)
    (hstate : status.state = some s) :
    (s ≠ "DONE" → processEntry f entry = .skip) ∧
    (status.error ≠ [] → processEntry f entry = .skip) ∧
    (∀ email stats, entry.principalEmail = some email →
      job.jobStatistics = some stats → stats.referencedTables.getD [] = [] →
      processEntry f entry = .skip) := by
  refine ⟨fun hs => ?_, fun he => ?_, fun email stats hemail hstats href => ?_⟩
  · simp [processEntry, hjob, hstatus, hstate, hs]
  · by_cases hs : s = "DONE"
    · subst hs
      have hlen : 0 < status.error.length := List.length_pos.mpr he
      simp [processEntry, hjob, hstatus, hstate, hlen]
    · simp [processEntry, hjob, hstatus, hstate, hs]
  · by_cases hs : s = "DONE"
    · subst hs
      by_cases he : status.error = []
      · simp [processEntry, hjob, hstatus, hstate, he, hemail, hstats, href]
      · have hlen : 0 < status.error.length := List.length_pos.mpr he
        simp [processEntry, hjob, hstatus, hstate, hlen]
    · simp [processEntry, hjob, hstatus, hstate, hs]

/-- Witness for C2 at a concrete RUNNING entry. -/
theorem non_done_errored_or_tableless_entry_skipped_witness :
    ("RUNNING" : String) ≠ "DONE" ∧ processEntry none runningEntry = .skip := by
  refine ⟨by decide, ?_⟩
  exact (non_done_errored_or_tableless_entry_skipped none runningEntry runningJob
    runningStatus "RUNNING" rfl rfl rfl).1 (by decide)

/-- C7: with an identity filter configured, an entry whose principal email
does not match the pattern is skipped whole — zero increments for all of
its referenced tables — even though it passes every other filter. -/
theorem email_filter_mismatch_skips_entry
    (p : String → Bool) (entry : LogEntry) (job : Job) (status : JobStatus)
    (stats : JobStatistics) (email : String) (refTables : List RefTable)
    (hjob : entry.job = some job)
    (hstatus : job.jobStatus = some status)
    (hstate : status.state = some "DONE")
    (herr : status.error = [])
    (hemail : entry.principalEmail = some email)
    (hstats : job.jobStatistics = some stats)
    (href : stats.referencedTables = some refTables)
    (hne : refTables ≠ [])
    (hp : p email = false) :
    processEntry (some p) entry = .skip := by
  simp [processEntry, hjob, hstatus, hstate, herr, hemail, hstats, href, hne,
    patMatches, hp, List.isEmpty_iff]

/-- Witness for C7: a filter matching only a@x.com skips a b@y.com entry. -/
theorem email_filter_mismatch_skips_entry_witness :
    ((fun s => s == "a@x.com") "b@y.com") = false ∧
    processEntry (some (fun s => s == "a@x.com")) entryOther = .skip := by
  refine ⟨by decide, ?_⟩
  exact email_filter_mismatch_skips_entry (fun s => s == "a@x.com") entryOther
    jobPQ doneStatus statsPQ "b@y.com" [rtP, rtQ] rfl rfl rfl rfl rfl rfl rfl
    (by decide) (by decide)

/-- C3: if the filtered entry stream yields exactly N ≥ 1 key occurrences
equal to k, the aggregation pass succeeds and the final tally holds count
exactly N for k; moreover a recording step inserts an absent key at count
1 and bumps a present key by exactly one. -/
theorem repeated_key_occurrences_accumulate
    (f : Option (String → Bool)) (es : List LogEntry)
    (k : TableColumnUsageTuple) (N : Nat) (hN : 1 ≤ N)
    (herr : ∀ e ∈ es, processEntry f e ≠ .err)
    (hcount : (recordedKeys f es).count k = N) :
    countEntries f [] es = .ok (tallyOf (recordedKeys f es)) ∧
    lookupTally (tallyOf (recordedKeys f es)) k = some N ∧
    (∀ t, lookupTally t k = none → lookupTally (recordUsage t k) k = some 1) ∧
    (∀ t m, lookupTally t k = some m →
      lookupTally (recordUsage t k) k = some (m + 1)) := by
  refine ⟨countEntries_eq_of_no_err f es [] herr, ?_, fun t ht => ?_,
    fun t m ht => ?_⟩
  · rw [tallyOf, lookupTally_foldl_recordUsage, hcount]
    have hN0 : ¬ N = 0 := by omega
    simp [hN0, lookupD, lookupTally]
  · rw [lookupTally_recordUsage_self, lookupD, ht]
    rfl
  · rw [lookupTally_recordUsage_self, lookupD, ht]
    rfl

/-- Witness for C3: the same DONE entry twice gives count 2 for its first
table's key. -/
theorem repeated_key_occurrences_accumulate_witness :
    (∀ e ∈ [entryPQ, entryPQ], processEntry none e ≠ .err) ∧
    (recordedKeys none [entryPQ, entryPQ]).count (mkUsageKey "a@x.com" rtP) = 2 ∧
    lookupTally (tallyOf (recordedKeys none [entryPQ, entryPQ]))
      (mkUsageKey "a@x.com" rtP) = some 2 := by
  refine ⟨by decide, by decide, ?_⟩
  exact (repeated_key_occurrences_accumulate none [entryPQ, entryPQ]
    (mkUsageKey "a@x.com" rtP) 2 (by decide) (by decide) (by decide)).2.1

/-- C4: failing input for the pagination retry.  On a first page that
carries both entries and a continuation token, a single transient failure
of the continuation request makes the `while response:` loop re-enter with
the previous response still bound and yield it again: `entryA` is
delivered twice instead of once, so the retry is not invisible to the
consumer of the page stream. -/
theorem retry_redelivers_current_page :
    page_over_results pageOne [.error (), .ok pageTwo] =
      [pageOne, pageOne, pageTwo] ∧
    retrieve_records pageOne [.ok pageTwo] = [entryA, entryB] ∧
    retrieve_records pageOne [.error (), .ok pageTwo] =
      [entryA, entryA, entryB] ∧
    (retrieve_records pageOne [.ok pageTwo]).count entryA = 1 ∧
    (retrieve_records pageOne [.error (), .ok pageTwo]).count entryA = 2 := by
  decide

/-- C5 counterexample: an entry whose job-completion payload resolves but
whose `jobStatus` key is absent is not skipped silently — the
`job['jobStatus']['state']` subscript raises and the exception escapes the
aggregation pass. -/
theorem missing_jobStatus_raises :
    processEntry none entryMissingStatus = .err ∧
    countEntries none [] [entryMissingStatus] = .error () :=
  ⟨rfl, rfl⟩

/-- C5 amended: only a failure of the
`protoPayload.serviceData.jobCompletedEvent.job` path lookup is tolerated,
skipping the entry silently with zero increments; if that payload resolves
but a deeper field the core reads is absent — `jobStatus`, its `state`,
`authenticationInfo.principalEmail`, `jobStatistics`,
`totalTablesProcessed`, or `jobName` when the count-mismatch warning
fires — the unguarded subscript raises and the exception aborts the
aggregation pass. -/
theorem payload_failure_skipped_deeper_failure_raises
    (f : Option (String → Bool)) :
    (∀ e : LogEntry, e.job = none → processEntry f e = .skip ∧
      ∀ t es, countEntries f t (e :: es) = countEntries f t es) ∧
    (∀ e job, e.job = some job → job.jobStatus = none →
      processEntry f e = .err) ∧
    (∀ e job status, e.job = some job → job.jobStatus = some status →
      status.state = none → processEntry f e = .err) ∧
    (∀ e job status, e.job = some job → job.jobStatus = some status →
      status.state = some "DONE" → status.error = [] →
      e.principalEmail = none → processEntry f e = .err) ∧
    (∀ e job status email, e.job = some job → job.jobStatus = some status →
      status.state = some "DONE" → status.error = [] →
      e.principalEmail = some email → job.jobStatistics = none →
      processEntry f e = .err) ∧
    (∀ e job status email stats, e.job = some job →
      job.jobStatus = some status → status.state = some "DONE" →
      status.error = [] → e.principalEmail = some email →
      job.jobStatistics = some stats → stats.referencedTables.getD [] ≠ [] →
      patMatches f email = true → stats.totalTablesProcessed = none →
      processEntry f e = .err) ∧
    (∀ e job status email stats ntp, e.job = some job →
      job.jobStatus = some status → status.state = some "DONE" →
      status.error = [] → e.principalEmail = some email →
      job.jobStatistics = some stats → stats.referencedTables.getD [] ≠ [] →
      patMatches f email = true → stats.totalTablesProcessed = some ntp →
      (stats.referencedTables.getD []).length ≠ ntp → job.jobName = none →
      processEntry f e = .err) ∧
    (∀ e t es, processEntry f e = .err →
      countEntries f t (e :: es) = .error ()) := by
  have hskip : ∀ e : LogEntry, e.job = none → processEntry f e = .skip :=
    fun e h1 => by simp [processEntry, h1]
  refine ⟨fun e h1 => ⟨hskip e h1, fun t es => by rw [countEntries_cons, hskip e h1]⟩,
    fun e job h1 h2 => by simp [processEntry, h1, h2],
    fun e job status h1 h2 h3 => by simp [processEntry, h1, h2, h3],
    fun e job status h1 h2 h3 h4 h5 => by
      simp [processEntry, h1, h2, h3, h4, h5],
    fun e job status email h1 h2 h3 h4 h5 h6 => by
      simp [processEntry, h1, h2, h3, h4, h5, h6],
    fun e job status email stats h1 h2 h3 h4 h5 h6 h7 h8 h9 => by
      simp [processEntry, h1, h2, h3, h4, h5, h6, h7, h8, h9,
        List.isEmpty_iff],
    fun e job status email stats ntp h1 h2 h3 h4 h5 h6 h7 h8 h9 h10 h11 => by
      simp [processEntry, h1, h2, h3, h4, h5, h6, h7, h8, h9, h10, h11,
        List.isEmpty_iff],
    fun e t es herr => by rw [countEntries_cons, herr]⟩

/-- Witness for the amended C5: one concrete entry per tolerated or
raising case, each evaluated through the theorem. -/
theorem payload_failure_skipped_deeper_failure_raises_witness :
    processEntry none emptyEntry = .skip ∧
    countEntries none [] [emptyEntry, entryPQ] = countEntries none [] [entryPQ] ∧
    processEntry none entryMissingStatus = .err ∧
    processEntry none entryMissingState = .err ∧
    processEntry none entryMissingEmail = .err ∧
    processEntry none entryMissingStats = .err ∧
    processEntry none entryMissingNtp = .err ∧
    processEntry none entryMismatchNoName = .err ∧
    countEntries none [] [entryMissingStatus, entryPQ] = .error () := by
  have h := payload_failure_skipped_deeper_failure_raises none
  have hstatus : processEntry none entryMissingStatus = .err :=
    h.2.1 entryMissingStatus statuslessJob rfl rfl
  refine ⟨(h.1 emptyEntry rfl).1, (h.1 emptyEntry rfl).2 [] [entryPQ],
    hstatus,
    h.2.2.1 entryMissingState statelessJob statelessStatus rfl rfl rfl,
    h.2.2.2.1 entryMissingEmail jobPQ doneStatus rfl rfl rfl rfl rfl,
    h.2.2.2.2.1 entryMissingStats noStatsJob doneStatus "a@x.com"
      rfl rfl rfl rfl rfl rfl,
    h.2.2.2.2.2.1 entryMissingNtp noNtpJob doneStatus "a@x.com" statsNoNtp
      rfl rfl rfl rfl rfl rfl (by decide) rfl rfl,
    h.2.2.2.2.2.2.1 entryMismatchNoName namelessJob doneStatus "a@x.com"
      statsMismatch 5 rfl rfl rfl rfl rfl rfl (by decide) rfl rfl
      (by decide) rfl,
    h.2.2.2.2.2.2.2 entryMissingStatus [] [entryPQ] hstatus⟩

/-- C6: over a tally with K distinct keys, call n of `extract()`
(0-indexed) returns exactly the n-th (key, count) pair of the tally — so
the first K calls return each pair once, in insertion order — and every
call from the K-th on returns the `None` sentinel. -/
theorem extract_returns_each_pair_once_then_none (t : Tally)
    (h : (t.map Prod.fst).Nodup) (n : Nat) :
    callResult t n = t[n]? := by
  simp only [callResult]
  rw [stateAfter_eq]
  cases hd : (t.map Prod.fst).drop n with
  | nil =>
    have hnone : (t[n]?).map Prod.fst = none := by
      rw [← List.getElem?_map, ← head?_drop_eq, hd]
      rfl
    have ht : t[n]? = none := by
      cases hx : t[n]? with
      | none => rfl
      | some p => rw [hx] at hnone; simp at hnone
    simp [extract, ht]
  | cons k ks =>
    have hk : (t[n]?).map Prod.fst = some k := by
      rw [← List.getElem?_map, ← head?_drop_eq, hd]
      rfl
    obtain ⟨p, hp, hpk⟩ := Option.map_eq_some'.mp hk
    have hl : lookupTally t p.1 = some p.2 := lookupTally_of_getElem t h n p hp
    obtain ⟨pk, pv⟩ := p
    simp only at hpk
    subst hpk
    simp only at hl
    rw [hp]
    simp [extract, lookupD, hl]

/-- Witness for C6 on a two-key tally: calls 0 and 2 hit the first pair
and the sentinel respectively. -/
theorem extract_returns_each_pair_once_then_none_witness :
    (tallySample.map Prod.fst).Nodup ∧
    callResult tallySample 0 = tallySample[0]? ∧
    callResult tallySample 2 = tallySample[2]? ∧
    tallySample[0]? = some (mkUsageKey "a@x.com" rtP, 2) ∧
    tallySample[2]? = none :=
  ⟨by decide,
   extract_returns_each_pair_once_then_none tallySample (by decide) 0,
   extract_returns_each_pair_once_then_none tallySample (by decide) 2,
   by decide, rfl⟩

/-- C8: if the very first `entries().list().execute()` raises, the error
propagates out of construction unchanged, for every continuation oracle —
the retry path is never engaged and no tally at all is produced. -/
theorem first_request_failure_propagates
    (f : Option (String → Bool)) (oracle : List (Except Unit PageResponse)) :
    count_usage f (.error ()) oracle = .error () := rfl

/-- C9: the tally invariant: all stored counts stay ≥ 1, each recording
step either inserts an absent key at count 1 or increments the key's count
by exactly one, every other key is untouched, and no count is ever
decremented or removed. -/
theorem tally_counts_positive_and_monotone (t : Tally)
    (k : TableColumnUsageTuple) (hpos : ∀ p ∈ t, 1 ≤ p.2) :
    (∀ p ∈ recordUsage t k, 1 ≤ p.2) ∧
    lookupTally (recordUsage t k) k = some (lookupD t k + 1) ∧
    (∀ k2, k2 ≠ k → lookupTally (recordUsage t k) k2 = lookupTally t k2) ∧
    (∀ k2 m, lookupTally t k2 = some m →
      ∃ m2, lookupTally (recordUsage t k) k2 = some m2 ∧ m ≤ m2) := by
  refine ⟨recordUsage_pos t k hpos, lookupTally_recordUsage_self t k,
    fun k2 h2 => lookupTally_recordUsage_other t k k2 h2, fun k2 m hm => ?_⟩
  by_cases h2 : k2 = k
  · subst h2
    refine ⟨lookupD t k2 + 1, lookupTally_recordUsage_self t k2, ?_⟩
    simp [lookupD, hm]
  · exact ⟨m, (lookupTally_recordUsage_other t k k2 h2).trans hm, le_refl m⟩

/-- Witness for C9 on the sample tally. -/
theorem tally_counts_positive_and_monotone_witness :
    (∀ p ∈ tallySample, 1 ≤ p.2) ∧
    lookupTally (recordUsage tallySample (mkUsageKey "a@x.com" rtP))
        (mkUsageKey "a@x.com" rtP) =
      some (lookupD tallySample (mkUsageKey "a@x.com" rtP) + 1) :=
  ⟨by decide, (tally_counts_positive_and_monotone tallySample
    (mkUsageKey "a@x.com" rtP) (by decide)).2.1⟩

theorem mkUsageKey_injective (email : String) :
    Function.Injective (mkUsageKey email) := by
  intro a b hab
  obtain ⟨p1, d1, t1⟩ := a
  obtain ⟨p2, d2, t2⟩ := b
  simp only [mkUsageKey, TableColumnUsageTuple.mk.injEq] at hab
  obtain ⟨-, h1, h2, h3, -, -⟩ := hab
  subst h1
  subst h2
  subst h3
  rfl

/-- C10: duplicate occurrences of the same (projectId, datasetId, tableId)
triple inside one entry's referencedTables are not deduplicated: a triple
appearing M times adds exactly M to the count of its usage key. -/
theorem duplicate_referenced_tables_counted_each_time
    (rt : RefTable) (email : String) (refTables : List RefTable)
    (t : Tally) (M : Nat) (hM : refTables.count rt = M) :
    lookupD ((refTables.map (mkUsageKey email)).foldl recordUsage t)
        (mkUsageKey email rt) =
      lookupD t (mkUsageKey email rt) + M := by
  rw [lookupD_foldl_recordUsage,
    List.count_map_of_injective _ _ (mkUsageKey_injective email), hM]

/-- Witness for C10: a table referenced twice in one list adds two. -/
theorem duplicate_referenced_tables_counted_each_time_witness :
    ([rtP, rtQ, rtP].count rtP = 2) ∧
    lookupD (([rtP, rtQ, rtP].map (mkUsageKey "a@x.com")).foldl recordUsage [])
        (mkUsageKey "a@x.com" rtP) =
      lookupD [] (mkUsageKey "a@x.com" rtP) + 2 :=
  ⟨by decide, duplicate_referenced_tables_counted_each_time rtP "a@x.com"
    [rtP, rtQ, rtP] [] 2 (by decide)⟩

end BigQueryUsage
